import Mathlib

/-!
Verification of the logging-setup module (`logger.py`) against its
natural-language specification.

The development shallowly embeds the module's data model and operations:

* YAML configuration values (`Yaml`) and Python `dict.get` / subscript access,
  with Python exceptions modelled by `Except PyErr`;
* the `JSONFormatter` (JSON rendering of the four-field log entry, together
  with a JSON parser used to state the round-trip property);
* the sink builders `ConsoleLogger.setup`, `FileLogger.setup`,
  `RemoteLogger.setup` (including a model of `urllib.parse.urlparse` on the
  subset of URL shapes the module feeds it);
* the delivery router `get_handlers_with_listeners` and `LoggerFactory.setup`;
* the configuration loader `LoggerConfig.get_config` with its class-level
  cache.

Machine integers do not occur (Python integers are unbounded); levels are
`Nat`.  Fallible Python code returns `Except PyErr`.
-/

namespace LoggerPy

/-- A YAML value as produced by `yaml.safe_load`, restricted to the scalar and
mapping shapes the module manipulates (mappings are association lists in
document order). -/
inductive Yaml where
  | ynull : Yaml
  | ybool : Bool → Yaml
  | yint : Int → Yaml
  | ystr : String → Yaml
  | ymap : List (String × Yaml) → Yaml

/-- Python exceptions that the embedded code can raise. -/
inductive PyErr where
  | keyError : String → PyErr
  | attributeError : PyErr
  | typeError : PyErr
  | valueError : PyErr
  deriving DecidableEq

/-- Association-list lookup, modelling `dict` key lookup (first binding wins,
as a Python dict has unique keys). -/
def lookupY : List (String × Yaml) → String → Option Yaml
  | [], _ => none
  | (k, v) :: kvs, key => if k = key then some v else lookupY kvs key

/-- Python `d[key]` on a dict: `KeyError` when absent. -/
def subscript (m : List (String × Yaml)) (key : String) : Except PyErr Yaml :=
  match lookupY m key with
  | some v => Except.ok v
  | none => Except.error (PyErr.keyError key)

/-- Python `d.get(key, default)` on a dict. -/
def yget (m : List (String × Yaml)) (key : String) (dflt : Yaml) : Yaml :=
  (lookupY m key).getD dflt

/-- Python truthiness of a YAML value (`None`, `False`, `0`, `""`, `{}` are
falsy). -/
def truthy : Yaml → Bool
  | Yaml.ynull => false
  | Yaml.ybool b => b
  | Yaml.yint n => n ≠ 0
  | Yaml.ystr s => s ≠ ""
  | Yaml.ymap kvs => !kvs.isEmpty

/-- Calling `.get` on a value that is not a dict raises `AttributeError`
(`None`, booleans, numbers and strings have no `get` method). -/
def asMap : Yaml → Except PyErr (List (String × Yaml))
  | Yaml.ymap m => Except.ok m
  | _ => Except.error PyErr.attributeError

/-- Passing a value where a `str` is required (logger name, file name,
`urlparse` argument) raises a `TypeError` for non-strings. -/
def expectStr : Yaml → Except PyErr String
  | Yaml.ystr s => Except.ok s
  | _ => Except.error PyErr.typeError

/-- The numeric value of `getattr(logging, s)` for the level names the
`logging` module defines; any other name makes the handler setup raise
(an unknown attribute raises `AttributeError`, a non-level attribute makes
`setLevel` raise).  Both failure modes are collapsed into `none`. -/
def levelTable (s : String) : Option Nat :=
  if s = "CRITICAL" then some 50
  else if s = "FATAL" then some 50
  else if s = "ERROR" then some 40
  else if s = "WARNING" then some 30
  else if s = "WARN" then some 30
  else if s = "INFO" then some 20
  else if s = "DEBUG" then some 10
  else if s = "NOTSET" then some 0
  else none

/-- `getattr(logging, v)` followed by `setLevel`: non-strings raise
`TypeError`, unknown level names raise `AttributeError`. -/
def getattrLevel : Yaml → Except PyErr Nat
  | Yaml.ystr s =>
      match levelTable s with
      | some n => Except.ok n
      | none => Except.error PyErr.attributeError
  | _ => Except.error PyErr.typeError

/-- A constructed `logging` handler.  `stream` is the console
`StreamHandler`, `rotatingFile` the `RotatingFileHandler` (whose `maxBytes`
and `backupCount` arguments are stored unchecked, as the Python constructor
does not validate them), `http` the `HTTPHandler`, and `queueHandler` the
`QueueHandler` bound to the queue with identity `qid`.  Each carries its
severity threshold (a `QueueHandler` keeps the default `NOTSET = 0`). -/
inductive Handler where
  | stream : Nat → Handler
  | rotatingFile : String → Yaml → Yaml → Nat → Handler
  | http : String → String → String → Nat → Handler
  | queueHandler : Nat → Handler

/-- The severity threshold a handler filters by. -/
def Handler.level : Handler → Nat
  | Handler.stream l => l
  | Handler.rotatingFile _ _ _ l => l
  | Handler.http _ _ _ l => l
  | Handler.queueHandler _ => 0

/-- A `QueueListener`: bound to the queue with identity `qid`, forwarding to
`handler`. -/
structure Listener where
  qid : Nat
  handler : Handler


/-! ### A model of `urllib.parse.urlparse` for the fields the module reads

`RemoteLogger.setup` reads `hostname`, `port` and `path` of the parse
result.  The model follows CPython 3.11 `urllib.parse` on those fields:
`urlsplit` strips leading C0-control/space characters, removes every tab,
CR and LF, recognizes a scheme only when a first `":"` is preceded by an
ASCII letter followed by scheme characters, takes a netloc only after
`"//"` (up to the first of `/?#`), validates brackets in the netloc (a
mismatched bracket, a bracketed IPv4 address, an invalid bracketed IPv6 or
IPvFuture address each raise `ValueError`), and strips the fragment and the
query from the path.  `hostname` is the part of the netloc after the last
`"@"` and before the first `":"` (bracket-aware), lowercased up to a `"%"`
zone separator, `None` when empty; the `port` property accepts a nonempty
all-ASCII-digit port text at most 65535 and raises `ValueError` otherwise.
The NFKC netloc check (`_checknetloc`), which cannot fire on an ASCII
netloc, and non-ASCII lowercasing are outside the model: the model is
exact for ASCII URLs, which the C4 theorem's ASCII hypothesis reflects. -/

/-- An ASCII letter. -/
def isAsciiAlpha (c : Char) : Bool :=
  ('a' ≤ c ∧ c ≤ 'z') ∨ ('A' ≤ c ∧ c ≤ 'Z')

/-- An ASCII decimal digit. -/
def isAsciiDigit (c : Char) : Bool := '0' ≤ c ∧ c ≤ '9'

/-- A character of `scheme_chars`: ASCII letters, digits, `+`, `-`, `.`. -/
def isSchemeChar (c : Char) : Bool :=
  isAsciiAlpha c ∨ isAsciiDigit c ∨ c = '+' ∨ c = '-' ∨ c = '.'

/-- An ASCII hex digit (the `ipaddress` module's `_HEX_DIGITS`). -/
def isHexDigitPy (c : Char) : Bool :=
  isAsciiDigit c ∨ ('a' ≤ c ∧ c ≤ 'f') ∨ ('A' ≤ c ∧ c ≤ 'F')

/-- ASCII lowercasing of one character (`str.lower` restricted to ASCII,
where it agrees with Python). -/
def asciiLower (c : Char) : Char :=
  if 'A' ≤ c ∧ c ≤ 'Z' then Char.ofNat (c.toNat + 32) else c

/-- Decimal value of an ASCII digit string. -/
def digitsVal (cs : List Char) : Nat :=
  cs.foldl (fun a c => a * 10 + (c.toNat - 48)) 0

/-- The suffix after the last occurrence of `ch` (`str.rpartition`), or the
whole list when `ch` does not occur. -/
def afterLastChar (ch : Char) : List Char → List Char
  | [] => []
  | c :: rest =>
      if rest.contains ch then afterLastChar ch rest
      else if c = ch then rest
      else c :: rest

/-- The suffix after the first occurrence of `ch` (`str.partition`), empty
when `ch` does not occur. -/
def afterFirstChar (ch : Char) (cs : List Char) : List Char :=
  if cs.contains ch then (cs.dropWhile (fun c => c ≠ ch)).drop 1 else []

/-- `str.split` on a single separator character: at least one part, empty
parts kept. -/
def splitOnChar (ch : Char) : List Char → List (List Char)
  | [] => [[]]
  | c :: rest =>
      let ps := splitOnChar ch rest
      if c = ch then [] :: ps
      else
        match ps with
        | p :: ps2 => (c :: p) :: ps2
        | [] => [[c]]

/-- `scheme://` recognition of `urlsplit`: drop `scheme:` when the text
before the first `":"` is nonempty, starts with an ASCII letter and
consists of scheme characters; otherwise leave the URL unchanged. -/
def stripScheme (cs : List Char) : List Char :=
  let before := cs.takeWhile (fun c => c ≠ ':')
  match cs.dropWhile (fun c => c ≠ ':') with
  | [] => cs
  | _ :: afterColon =>
      match before with
      | [] => cs
      | c :: _ => if isAsciiAlpha c ∧ before.all isSchemeChar then afterColon else cs

/-- Drop the fragment (first `#`) and then the query (first `?`), as
`urlsplit` does before the path remains. -/
def stripFragQuery (cs : List Char) : List Char :=
  (cs.takeWhile (fun c => c ≠ '#')).takeWhile (fun c => c ≠ '?')

/-- A dotted-quad octet per `ipaddress._parse_octet`: nonempty ASCII
digits, at most 3 characters, no leading zero, value at most 255. -/
def validOctet (o : List Char) : Bool :=
  (!o.isEmpty) && o.all isAsciiDigit && decide (o.length ≤ 3) &&
  (match o with
   | '0' :: tl => tl.isEmpty
   | _ => true) &&
  decide (digitsVal o ≤ 255)

/-- A valid IPv4 address string per `ipaddress.IPv4Address`. -/
def validIPv4 (b : List Char) : Bool :=
  let parts := splitOnChar '.' b
  decide (parts.length = 4) && parts.all validOctet

/-- An IPv6 hextet per `ipaddress._parse_hextet`: nonempty hex digits, at
most 4 characters. -/
def validHextet (h : List Char) : Bool :=
  (!h.isEmpty) && h.all isHexDigitPy && decide (h.length ≤ 4)

/-- A valid IPv6 address string (no zone) per
`ipaddress._BaseV6._ip_int_from_string`: split on `":"`, at least 3 parts;
an IPv4-style last part is converted to two hextets; at most 9 parts; at
most one internal empty part (the `"::"` skip), a leading or trailing empty
part only as part of a leading or trailing `"::"`; with a skip at most 7
other parts, without a skip exactly 8; every kept part a valid hextet. -/
def validIPv6 (addr : List Char) : Bool :=
  let parts := splitOnChar ':' addr
  if parts.length < 3 then false
  else
    let parts2 : Option (List (List Char)) :=
      match parts.getLast? with
      | some last =>
          if last.contains '.' then
            if validIPv4 last then some (parts.dropLast ++ [['0'], ['0']]) else none
          else some parts
      | none => some parts
    match parts2 with
    | none => false
    | some ps =>
        if 9 < ps.length then false
        else
          let inner := (ps.drop 1).dropLast
          if 2 ≤ (inner.filter (fun p => p.isEmpty)).length then false
          else
            match inner.findIdx? (fun p => p.isEmpty) with
            | some k =>
                let si := k + 1
                let n := ps.length
                let hdEmpty := (ps.headD []).isEmpty
                let lastEmpty := (ps.getLastD []).isEmpty
                if hdEmpty ∧ si ≠ 1 then false
                else if lastEmpty ∧ n - si - 1 ≠ 1 then false
                else
                  let hi := if hdEmpty then 0 else si
                  let lo := if lastEmpty then 0 else n - si - 1
                  if 8 ≤ hi + lo then false
                  else (ps.take hi).all validHextet && (ps.drop (n - lo)).all validHextet
            | none =>
                decide (ps.length = 8) && !(ps.headD []).isEmpty &&
                  !(ps.getLastD []).isEmpty && ps.all validHextet

/-- A valid IPv6 address with an optional `%zone` suffix per
`ipaddress.IPv6Address` (`_split_scope_id`: a present zone must be nonempty
and contain no further `%`). -/
def validIPv6WithScope (b : List Char) : Bool :=
  if b.contains '%' then
    let addr := b.takeWhile (fun c => c ≠ '%')
    let zone := afterFirstChar '%' b
    (!zone.isEmpty) && !zone.contains '%' && validIPv6 addr
  else validIPv6 b

/-- `urllib.parse._check_bracketed_host` as a validity predicate: a host
starting with `v` must be an IPvFuture (`v`, hex digits, `.`, a nonempty
rest); otherwise a valid IPv4 address is rejected (cannot be bracketed) and
the host must be a valid IPv6 address (optionally with a zone). -/
def checkBracketedHost (b : List Char) : Bool :=
  match b with
  | 'v' :: rest =>
      let hex := rest.takeWhile isHexDigitPy
      let rest2 := rest.dropWhile isHexDigitPy
      (!hex.isEmpty) &&
        (match rest2 with
         | '.' :: tl => !tl.isEmpty
         | _ => false)
  | _ => if validIPv4 b then false else validIPv6WithScope b

/-- The parsed-URL fields the module reads, with `portRead` standing for
the `port` property access (`Except` because that access can raise
`ValueError`). -/
structure ParsedUrl where
  hostname : Option String
  portRead : Except PyErr (Option Nat)
  path : String

/-- The `hostname`/`port` sub-components of a netloc
(`_NetlocResultMixinStr._hostinfo` with the `hostname` and `port`
properties applied): take the part after the last `"@"`; inside brackets
the host is the bracketed text and the port text follows the first `":"`
after the closing bracket, otherwise split at the first `":"`; an empty
host is `None`, else it is lowercased up to a `"%"` zone separator; an
empty port text is `None`, a nonempty all-ASCII-digit one at most 65535 is
its value, anything else raises `ValueError` when read. -/
def hostinfoFields (netloc : List Char) : Option String × Except PyErr (Option Nat) :=
  let hostinfo := afterLastChar '@' netloc
  let hostPort : List Char × List Char :=
    if hostinfo.contains '[' then
      let bracketed := (hostinfo.dropWhile (fun c => c ≠ '[')).drop 1
      (bracketed.takeWhile (fun c => c ≠ ']'),
       afterFirstChar ':' ((bracketed.dropWhile (fun c => c ≠ ']')).drop 1))
    else
      (hostinfo.takeWhile (fun c => c ≠ ':'), afterFirstChar ':' hostinfo)
  let hostnameOpt : Option String :=
    if hostPort.1.isEmpty then none
    else
      some (String.mk ((hostPort.1.takeWhile (fun c => c ≠ '%')).map asciiLower ++
        hostPort.1.dropWhile (fun c => c ≠ '%')))
  let portRead : Except PyErr (Option Nat) :=
    if hostPort.2.isEmpty then Except.ok none
    else if hostPort.2.all isAsciiDigit then
      if digitsVal hostPort.2 ≤ 65535 then Except.ok (some (digitsVal hostPort.2))
      else Except.error PyErr.valueError
    else Except.error PyErr.valueError
  (hostnameOpt, portRead)

/-- Model of `urllib.parse.urlparse` (CPython 3.11) restricted to the
fields the module reads; `Except` because `urlsplit` itself raises
`ValueError` on bracket problems in the netloc. -/
def urlparse (s : String) : Except PyErr ParsedUrl :=
  let cs0 := (s.data.dropWhile (fun c => c.toNat ≤ 0x20)).filter
    (fun c => ¬(c = Char.ofNat 9 ∨ c = Char.ofNat 13 ∨ c = Char.ofNat 10))
  let cs1 := stripScheme cs0
  match cs1 with
  | '/' :: '/' :: rest =>
      let netloc := rest.takeWhile (fun c => ¬(c = '/' ∨ c = '?' ∨ c = '#'))
      let rest2 := rest.dropWhile (fun c => ¬(c = '/' ∨ c = '?' ∨ c = '#'))
      if netloc.contains '[' ≠ netloc.contains ']' then Except.error PyErr.valueError
      else if netloc.contains '[' &&
          !checkBracketedHost
            (((netloc.dropWhile (fun c => c ≠ '[')).drop 1).takeWhile (fun c => c ≠ ']')) then
        Except.error PyErr.valueError
      else
        let hp := hostinfoFields netloc
        Except.ok
          { hostname := hp.1
            portRead := hp.2
            path := String.mk (stripFragQuery rest2) }
  | _ =>
      Except.ok
        { hostname := none
          portRead := Except.ok none
          path := String.mk (stripFragQuery cs1) }

/-- The string Python interpolates for a value in an f-string (`None` prints
as `"None"`). -/
def pyStrOfHostname : Option String → String
  | some h => h
  | none => "None"

/-- `f"{parsed_url.port or '80'}"`: a missing port and the falsy port `0`
both print as `"80"`. -/
def portOr80 : Option Nat → String
  | none => "80"
  | some p => if p = 0 then "80" else toString p

/-! ### Sink builders (`ConsoleLogger.setup`, `FileLogger.setup`,
`RemoteLogger.setup`)

Each builder reads `self.config`, which is the cached
`LoggerConfig.get_config()` mapping, passed here explicitly as `cfg`.
Formatter attachment carries no data relevant to the claims (every sink
gets a `JSONFormatter` over the same configured date format) and is left
implicit; the formatter itself is modelled below. -/

/-- `ConsoleLogger.setup`: `config['console']` (KeyError when absent), then
a `StreamHandler` at the configured level (default `INFO`). -/
def ConsoleLogger.setup (cfg : List (String × Yaml)) : Except PyErr Handler := do
  let sec ← subscript cfg "console"
  let secm ← asMap sec
  let lvl ← getattrLevel (yget secm "logger_console_handler_level" (Yaml.ystr "INFO"))
  return Handler.stream lvl

/-- Evaluating `maxBytes > 0` in the `RotatingFileHandler` constructor:
comparing a non-number (and non-boolean) with `0` raises `TypeError`. -/
def cmpWithZero (v : Yaml) : Except PyErr Unit :=
  match v with
  | Yaml.yint _ => Except.ok ()
  | Yaml.ybool _ => Except.ok ()
  | _ => Except.error PyErr.typeError

/-- `FileLogger.setup`: `config['file']`, then a `RotatingFileHandler` with
file name default `app.log`, `maxBytes` default `10485760`, `backupCount`
default `3`, level default `DEBUG`.  The constructor first evaluates
`maxBytes > 0` (`TypeError` on a non-number), then `os.fspath(filename)`
(`TypeError` on a non-string); `backupCount` is stored unchecked. -/
def FileLogger.setup (cfg : List (String × Yaml)) : Except PyErr Handler := do
  let sec ← subscript cfg "file"
  let secm ← asMap sec
  let maxBytes := yget secm "logger_max_bytes" (Yaml.yint 10485760)
  let backupCount := yget secm "logger_backup_count" (Yaml.yint 3)
  let _ ← cmpWithZero maxBytes
  let fname ← expectStr (yget secm "logger_file_name" (Yaml.ystr "app.log"))
  let lvl ← getattrLevel (yget secm "logger_file_handler_level" (Yaml.ystr "DEBUG"))
  return Handler.rotatingFile fname maxBytes backupCount lvl

/-- Is a YAML value exactly the string `"NONE"`?  Models the Python
comparison `remote_level != 'NONE'` (negated). -/
def isNONE : Yaml → Bool
  | Yaml.ystr s => s = "NONE"
  | _ => false

/-- `RemoteLogger.setup`: `config['remote']`, level default `WARNING`, URL via
`.get` (so `None` when absent); when the level is not the sentinel `"NONE"`
and the URL is truthy, parse the URL and build an `HTTPHandler` with host
`f"{hostname}:{port or '80'}"`, url `path or "/log"`, method `"POST"`;
otherwise return `None`. -/
def RemoteLogger.setup (cfg : List (String × Yaml)) :
    Except PyErr (Option Handler) := do
  let sec ← subscript cfg "remote"
  let secm ← asMap sec
  let remoteLevel := yget secm "logger_remote_handler_level" (Yaml.ystr "WARNING")
  let remoteUrl := yget secm "logger_remote_logging_url" Yaml.ynull
  if !(isNONE remoteLevel) ∧ truthy remoteUrl then do
    let urlStr ← expectStr remoteUrl
    let parsed ← urlparse urlStr
    let port ← parsed.portRead
    let host := pyStrOfHostname parsed.hostname ++ ":" ++ portOr80 port
    let url := if parsed.path = "" then "/log" else parsed.path
    let lvl ← getattrLevel remoteLevel
    return some (Handler.http host url "POST" lvl)
  else
    return none

/-- The `LOG_TYPE` class attributes, in the fixed order `LoggerFactory.setup`
passes the classes to `get_handlers_with_listeners`. -/
inductive SinkKind where
  | console : SinkKind
  | file : SinkKind
  | remote : SinkKind

/-- `LOG_TYPE` of a sink class. -/
def SinkKind.logType : SinkKind → String
  | SinkKind.console => "console"
  | SinkKind.file => "file"
  | SinkKind.remote => "remote"

/-- `logger_class().setup()` for one sink class, with the console and file
results wrapped in `some` (those `setup` methods never return `None`). -/
def sinkSetup (k : SinkKind) (cfg : List (String × Yaml)) :
    Except PyErr (Option Handler) :=
  match k with
  | SinkKind.console => (ConsoleLogger.setup cfg).map some
  | SinkKind.file => (FileLogger.setup cfg).map some
  | SinkKind.remote => RemoteLogger.setup cfg

/-- The loop body of `get_handlers_with_listeners` over the remaining sink
classes.  `baseQ` is the queue identity of the `base_logger` created at the
start of the call; `ctr` is the next fresh queue identity (each
`logger_class()` instantiation allocates one for its own — unused — queue).
For an async-marked sink whose builder yields a handler, the shared
`base_logger.queue_handler` is appended to `handlers` and a `QueueListener`
on the shared `base_logger.log_queue` is appended to `listeners`; for a
synchronous sink, the handler itself is appended; a builder yielding `None`
contributes nothing. -/
def routeSinks (cfg : List (String × Yaml)) (baseQ : Nat) :
    List SinkKind → Nat → Except PyErr (List Handler × List Listener × Nat)
  | [], ctr => Except.ok ([], [], ctr)
  | k :: ks, ctr => do
      let sec ← subscript cfg k.logType
      let secm ← asMap sec
      if truthy (yget secm "async" (Yaml.ybool false)) then do
        let h? ← sinkSetup k cfg
        let (hs, ls, c) ← routeSinks cfg baseQ ks (ctr + 1)
        match h? with
        | some h =>
            return (Handler.queueHandler baseQ :: hs, { qid := baseQ, handler := h } :: ls, c)
        | none => return (hs, ls, c)
      else do
        let h? ← sinkSetup k cfg
        let (hs, ls, c) ← routeSinks cfg baseQ ks (ctr + 1)
        match h? with
        | some h => return (h :: hs, ls, c)
        | none => return (hs, ls, c)

/-- `get_handlers_with_listeners([ConsoleLogger, FileLogger, RemoteLogger])`.
`n0` is the queue identity allocated to the `base_logger` created inside the
call; the returned `Nat` is the next free identity after the per-class
instantiations. -/
def get_handlers_with_listeners (cfg : List (String × Yaml)) (n0 : Nat) :
    Except PyErr (List Handler × List Listener × Nat) :=
  routeSinks cfg n0 [SinkKind.console, SinkKind.file, SinkKind.remote] (n0 + 1)

/-- The assembled logger: name, effective level (`setLevel(logging.DEBUG)`),
attached handlers, and the started listeners returned to the caller. -/
structure LoggerState where
  name : String
  level : Nat
  handlers : List Handler
  listeners : List Listener

/-- `LoggerFactory.setup`: read the cached config (here `cfgv`), derive the
logger name (default `APP`; `getLogger` requires a string), set the logger
level to `DEBUG = 10`, attach every returned handler and start every
listener. -/
def LoggerFactory.setup (cfgv : Yaml) (n0 : Nat) : Except PyErr LoggerState := do
  let cm ← asMap cfgv
  let name ← expectStr (yget cm "logger_name" (Yaml.ystr "APP"))
  let (hs, ls, _) ← get_handlers_with_listeners cm n0
  return { name := name, level := 10, handlers := hs, listeners := ls }

/-! ### The `JSONFormatter`

`JSONFormatter.format` builds
`{"timestamp": ..., "level": ..., "name": ..., "message": ...}` and returns
`json.dumps` of it.  `json.dumps` with its defaults (`ensure_ascii=True`, no
`indent`, separators `", "` / `": "`, insertion order kept) is modelled by
`dumpsObj` below; `json.loads` on the flat string-object fragment the module
emits is modelled by `parseJsonObj`, so the round-trip can be stated. -/

/-- A hex digit character, lowercase, as `json.dumps` emits them. -/
def toHexDigit (d : Nat) : Char :=
  if d < 10 then Char.ofNat ('0'.toNat + d) else Char.ofNat ('a'.toNat + d - 10)

/-- Four hex digits for `n < 0x10000`, most significant first. -/
def hex4L (n : Nat) : List Char :=
  [toHexDigit (n / 4096 % 16), toHexDigit (n / 256 % 16),
   toHexDigit (n / 16 % 16), toHexDigit (n % 16)]

/-- One character, escaped as `json.dumps(..., ensure_ascii=True)` escapes it:
`"` and `\` get a backslash, the five short escapes cover `\b \t \n \f \r`,
printable ASCII stays itself, everything else becomes `\uXXXX` (a surrogate
pair beyond the basic plane). -/
def escChar (c : Char) : List Char :=
  if c = '"' then ['\\', '"']
  else if c = '\\' then ['\\', '\\']
  else if c = Char.ofNat 8 then ['\\', 'b']
  else if c = Char.ofNat 9 then ['\\', 't']
  else if c = Char.ofNat 10 then ['\\', 'n']
  else if c = Char.ofNat 12 then ['\\', 'f']
  else if c = Char.ofNat 13 then ['\\', 'r']
  else if 0x20 ≤ c.toNat ∧ c.toNat ≤ 0x7e then [c]
  else if c.toNat < 0x10000 then '\\' :: 'u' :: hex4L c.toNat
  else
    '\\' :: 'u' :: hex4L (0xd800 + (c.toNat - 0x10000) / 0x400) ++
      '\\' :: 'u' :: hex4L (0xdc00 + (c.toNat - 0x10000) % 0x400)

/-- A JSON string literal for `s`: quote, escaped characters, quote. -/
def renderStrL (s : String) : List Char :=
  '"' :: (s.data.flatMap escChar ++ ['"'])

/-- The members of a flat string-valued object, rendered with the
`json.dumps` default separators `": "` and `", "`. -/
def renderMembers : List (String × String) → List Char
  | [] => []
  | [(k, v)] => renderStrL k ++ ':' :: ' ' :: renderStrL v
  | (k, v) :: m :: ms =>
      renderStrL k ++ ':' :: ' ' :: renderStrL v ++ ',' :: ' ' :: renderMembers (m :: ms)

/-- `json.dumps` of a dict of strings (insertion order preserved). -/
def dumpsObj (ms : List (String × String)) : String :=
  String.mk ('{' :: (renderMembers ms ++ ['}']))

/-- JSON whitespace, as `json.loads` skips it. -/
def isJsonWs (c : Char) : Bool :=
  c = ' ' ∨ c = '\t' ∨ c = '\n' ∨ c = '\r'

/-- Drop leading JSON whitespace. -/
def skipWs : List Char → List Char
  | [] => []
  | c :: cs => if isJsonWs c then skipWs cs else c :: cs

/-- The value of one hex digit character (either case), `none` otherwise. -/
def hexVal (c : Char) : Option Nat :=
  if '0' ≤ c ∧ c ≤ '9' then some (c.toNat - '0'.toNat)
  else if 'a' ≤ c ∧ c ≤ 'f' then some (c.toNat - 'a'.toNat + 10)
  else if 'A' ≤ c ∧ c ≤ 'F' then some (c.toNat - 'A'.toNat + 10)
  else none

/-- Four hex digit characters to their value. -/
def readHex4 (a b c d : Char) : Option Nat := do
  let va ← hexVal a
  let vb ← hexVal b
  let vc ← hexVal c
  let vd ← hexVal d
  return ((va * 16 + vb) * 16 + vc) * 16 + vd

/-- The single-character JSON escapes. -/
def unesc : Char → Option Char
  | '"' => some '"'
  | '\\' => some '\\'
  | '/' => some '/'
  | 'b' => some (Char.ofNat 8)
  | 'f' => some (Char.ofNat 12)
  | 'n' => some (Char.ofNat 10)
  | 'r' => some (Char.ofNat 13)
  | 't' => some (Char.ofNat 9)
  | _ => none

/-- Parse a JSON string body after the opening quote, undoing the escapes
(surrogate pairs recombine; a lone surrogate is rejected, as it has no
`Char`).  Returns the accumulated characters and the remainder after the
closing quote. -/
def parseStrBody (acc : List Char) : List Char → Option (List Char × List Char)
  | '"' :: rest => some (acc.reverse, rest)
  | '\\' :: 'u' :: a :: b :: c :: d :: rest =>
      (match readHex4 a b c d with
       | none => none
       | some n =>
         if 0xd800 ≤ n ∧ n ≤ 0xdbff then
           match rest with
           | '\\' :: 'u' :: a2 :: b2 :: c2 :: d2 :: rest2 =>
               (match readHex4 a2 b2 c2 d2 with
                | none => none
                | some m =>
                  if 0xdc00 ≤ m ∧ m ≤ 0xdfff then
                    parseStrBody
                      (Char.ofNat (0x10000 + (n - 0xd800) * 0x400 + (m - 0xdc00)) :: acc)
                      rest2
                  else none)
           | _ => none
         else if 0xdc00 ≤ n ∧ n ≤ 0xdfff then none
         else parseStrBody (Char.ofNat n :: acc) rest)
  | '\\' :: e :: rest =>
      (match unesc e with
       | some ch => parseStrBody (ch :: acc) rest
       | none => none)
  | c :: rest => parseStrBody (c :: acc) rest
  | [] => none

/-- Parse the members of a flat string-valued object, the input positioned at
a member's opening quote.  `fuel` bounds the number of further members. -/
def parseMembersAux (fuel : Nat) (cs : List Char) :
    Option (List (String × String) × List Char) :=
  match cs with
  | '"' :: r0 =>
      (match parseStrBody [] r0 with
       | none => none
       | some (k, r1) =>
         match skipWs r1 with
         | ':' :: r2 =>
             (match skipWs r2 with
              | '"' :: r3 =>
                  (match parseStrBody [] r3 with
                   | none => none
                   | some (v, r4) =>
                     match skipWs r4 with
                     | ',' :: r5 =>
                         (match fuel with
                          | 0 => none
                          | fuel' + 1 =>
                            match parseMembersAux fuel' (skipWs r5) with
                            | some (ms, r6) =>
                                some ((String.mk k, String.mk v) :: ms, r6)
                            | none => none)
                     | '}' :: r5 => some ([(String.mk k, String.mk v)], r5)
                     | _ => none)
              | _ => none)
         | _ => none)
  | _ => none

/-- `json.loads` on the flat string-valued-object fragment: the whole input
must be one object with string keys and string values, with nothing but
whitespace after it. -/
def parseJsonObj (s : String) : Option (List (String × String)) :=
  match skipWs s.data with
  | '{' :: r =>
      (match skipWs r with
       | '}' :: r2 => if (skipWs r2).isEmpty then some [] else none
       | r2 =>
         match parseMembersAux s.length r2 with
         | some (ms, rest) => if (skipWs rest).isEmpty then some ms else none
         | none => none)
  | _ => none

/-! ### Log records and `JSONFormatter.format` -/

/-- A Python value that can appear among a record's format arguments. -/
inductive PyVal where
  | pstr : String → PyVal
  | pint : Int → PyVal

/-- Decimal digits of a natural number, most significant first (fuel-driven
so that it reduces definitionally). -/
def natDigitsAux : Nat → Nat → List Char → List Char
  | 0, _, acc => acc
  | fuel + 1, n, acc =>
      if n < 10 then Char.ofNat ('0'.toNat + n) :: acc
      else natDigitsAux fuel (n / 10) (Char.ofNat ('0'.toNat + n % 10) :: acc)

/-- Decimal rendering of a natural number. -/
def natToChars (n : Nat) : List Char := natDigitsAux (n + 1) n []

/-- `str` of a Python value (`%s` conversion). -/
def pyValChars : PyVal → List Char
  | PyVal.pstr s => s.data
  | PyVal.pint n => if n < 0 then '-' :: natToChars n.natAbs else natToChars n.natAbs

/-- Python `%`-interpolation on the `%s`/`%d`/`%%` fragment: `%d` demands an
integer (`TypeError` otherwise), leftover or missing arguments and other
conversions fail (`TypeError`/`ValueError`); failure is `none`. -/
def pyFormat : List Char → List PyVal → Option (List Char)
  | [], [] => some []
  | [], _ :: _ => none
  | '%' :: 's' :: rest, a :: args => (pyFormat rest args).map (pyValChars a ++ ·)
  | '%' :: 's' :: _, [] => none
  | '%' :: 'd' :: rest, PyVal.pint n :: args =>
      (pyFormat rest args).map (pyValChars (PyVal.pint n) ++ ·)
  | '%' :: 'd' :: _, _ => none
  | '%' :: '%' :: rest, args => (pyFormat rest args).map ('%' :: ·)
  | '%' :: _, _ => none
  | c :: rest, args => (pyFormat rest args).map (c :: ·)

/-- A `logging.LogRecord` as the module's formatter consumes it: creation
time, numeric severity, severity name, logger name, message template and
arguments. -/
structure LogRecord where
  created : Nat
  levelno : Nat
  levelname : String
  name : String
  msg : String
  args : List PyVal

/-- `LogRecord.getMessage`: the template itself when there are no arguments,
otherwise `msg % args` (which can raise — `none`). -/
def getMessage (r : LogRecord) : Option String :=
  if r.args.isEmpty then some r.msg
  else (pyFormat r.msg.data r.args).map String.mk

/-- `Formatter.formatTime` abstracted: the standard library's `strftime` is
out of the embedding's scope, so the record's creation time is rendered as
its decimal seconds value.  The claims under verification depend only on
this being some string. -/
def formatTime (datefmt : Option String) (created : Nat) : String :=
  match datefmt with
  | _ => String.mk (natToChars created)

/-- `JSONFormatter.format`: build the four-entry dict in source order and
`json.dumps` it.  The only fallible step is `record.getMessage()`; an
exception there propagates (`none`). -/
def JSONFormatter.format (datefmt : Option String) (r : LogRecord) : Option String :=
  (getMessage r).map fun m =>
    dumpsObj
      [("timestamp", formatTime datefmt r.created),
       ("level", r.levelname),
       ("name", r.name),
       ("message", m)]

/-! ### The configuration loader and its cache (`LoggerConfig.get_config`) -/

/-- What opening and parsing `config.yaml` can come to: a missing file, a
YAML syntax error, or a successfully parsed document. -/
inductive LoadSource where
  | fileNotFound : LoadSource
  | yamlError : LoadSource
  | doc : Yaml → LoadSource

/-- The body of the `try` in `get_config`:
`yaml.safe_load(file)['logger']` with `FileNotFoundError`, `KeyError` and
`yaml.YAMLError` caught (diagnostic printed, `{}` substituted).  The `Bool`
records whether the diagnostic was printed.  Subscripting a document that
parsed to a non-dict raises `TypeError`, which the `except` clause does not
name, so it propagates. -/
def loadLoggerSection (src : LoadSource) : Except PyErr Yaml × Bool :=
  match src with
  | LoadSource.fileNotFound => (Except.ok (Yaml.ymap []), true)
  | LoadSource.yamlError => (Except.ok (Yaml.ymap []), true)
  | LoadSource.doc (Yaml.ymap m) =>
      match lookupY m "logger" with
      | some v => (Except.ok v, false)
      | none => (Except.ok (Yaml.ymap []), true)
  | LoadSource.doc _ => (Except.error PyErr.typeError, false)

/-- One call to `LoggerConfig.get_config` with class attribute `cls._config`
equal to `cache` (`ynull` stands for Python `None`, its initial value) and
the configuration file in state `src`.  Returns the result together with
the new cache value, plus the diagnostic flag.  The load runs only when the
cache is `None`; a propagating exception leaves the cache as it was. -/
def get_config_step (cache : Yaml) (src : LoadSource) :
    Except PyErr (Yaml × Yaml) × Bool :=
  match cache with
  | Yaml.ynull =>
      (match loadLoggerSection src with
       | (Except.ok v, d) => (Except.ok (v, v), d)
       | (Except.error e, d) => (Except.error e, d))
  | c => (Except.ok (c, c), false)

/-- A sequence of `get_config` calls against possibly different file states,
threading the cache; each entry is that call's outcome. -/
def get_config_seq (cache : Yaml) : List LoadSource → List (Except PyErr Yaml)
  | [] => []
  | s :: ss =>
      match get_config_step cache s with
      | (Except.ok (v, c), _) => Except.ok v :: get_config_seq c ss
      | (Except.error e, _) => Except.error e :: get_config_seq cache ss

/-! ### Record delivery through the assembled logger -/

/-- The records a directly attached handler emits when the given records are
logged on a logger with effective level `loggerLevel`: exactly those meeting
both the logger's and the handler's thresholds (`Logger.callHandlers` and
`Handler.handle`). -/
def handlerEmits (loggerLevel : Nat) (h : Handler) (rs : List LogRecord) :
    List LogRecord :=
  rs.filter (fun r => loggerLevel ≤ r.levelno ∧ h.level ≤ r.levelno)

/-- The records produced by calling the five severity-keyed methods in order
`debug, info, warning, error, critical` with argument-free messages. -/
def fiveCalls (name : String) (t : Nat) (m1 m2 m3 m4 m5 : String) :
    List LogRecord :=
  [{ created := t, levelno := 10, levelname := "DEBUG", name := name, msg := m1, args := [] },
   { created := t, levelno := 20, levelname := "INFO", name := name, msg := m2, args := [] },
   { created := t, levelno := 30, levelname := "WARNING", name := name, msg := m3, args := [] },
   { created := t, levelno := 40, levelname := "ERROR", name := name, msg := m4, args := [] },
   { created := t, levelno := 50, levelname := "CRITICAL", name := name, msg := m5, args := [] }]

/-! ### Round-trip lemmas for the JSON codec -/

theorem char_valid_nat (c : Char) :
    c.toNat < 0xd800 ∨ (0xdfff < c.toNat ∧ c.toNat < 0x110000) := c.valid

theorem hexVal_toHexDigit : ∀ d : Nat, d < 16 → hexVal (toHexDigit d) = some d := by
  decide

theorem readHex4_hex4 (n : Nat) (h : n < 65536) :
    readHex4 (toHexDigit (n / 4096 % 16)) (toHexDigit (n / 256 % 16))
      (toHexDigit (n / 16 % 16)) (toHexDigit (n % 16)) = some n := by
  have h16 : ∀ k : Nat, k % 16 < 16 := fun k => Nat.mod_lt _ (by omega)
  simp only [readHex4, hexVal_toHexDigit _ (h16 _), Option.bind_some, bind,
    Option.bind, pure, Option.some.injEq]
  omega

set_option maxHeartbeats 2000000 in
theorem parseStrBody_escChar (c : Char) (acc rest : List Char) :
    parseStrBody acc (escChar c ++ rest) = parseStrBody (c :: acc) rest := by
  simp only [escChar]
  split_ifs with h1 h2 h3 h4 h5 h6 h7 hpr hbmp
  · subst h1; rfl
  · subst h2; rfl
  · subst h3; rfl
  · subst h4; rfl
  · subst h5; rfl
  · subst h6; rfl
  · subst h7; rfl
  ·
    simp only [List.cons_append, List.nil_append]
    rw [parseStrBody.eq_def]
    have h1' : c ≠ '"' := h1
    have h2' : c ≠ '\\' := h2
    simp [h1', h2']
  ·
    simp only [hex4L, List.cons_append, List.nil_append, parseStrBody,
      readHex4_hex4 c.toNat hbmp]
    have hval := char_valid_nat c
    have hns1 : ¬(0xd800 ≤ c.toNat ∧ c.toNat ≤ 0xdbff) := by omega
    have hns2 : ¬(0xdc00 ≤ c.toNat ∧ c.toNat ≤ 0xdfff) := by omega
    simp only [hns1, if_false, hns2, Char.ofNat_toNat]
  ·
    have hval := char_valid_nat c
    have hv : c.toNat < 0x110000 := by omega
    have hge : 0x10000 ≤ c.toNat := by omega
    have hhi : 0xd800 ≤ 0xd800 + (c.toNat - 0x10000) / 0x400 ∧
        0xd800 + (c.toNat - 0x10000) / 0x400 ≤ 0xdbff := by omega
    have hlo : 0xdc00 ≤ 0xdc00 + (c.toNat - 0x10000) % 0x400 ∧
        0xdc00 + (c.toNat - 0x10000) % 0x400 ≤ 0xdfff := by omega
    simp only [hex4L, List.cons_append, List.append_assoc, List.nil_append,
      parseStrBody, readHex4_hex4 _ (by omega : 0xd800 + (c.toNat - 0x10000) / 0x400 < 65536),
      readHex4_hex4 _ (by omega : 0xdc00 + (c.toNat - 0x10000) % 0x400 < 65536)]
    simp only [hhi, and_self, if_true, hlo, if_true]
    have harith : 0x10000 + (0xd800 + (c.toNat - 0x10000) / 0x400 - 0xd800) * 0x400 +
        (0xdc00 + (c.toNat - 0x10000) % 0x400 - 0xdc00) = c.toNat := by omega
    rw [harith, Char.ofNat_toNat]

set_option maxHeartbeats 1000000 in
theorem parseStrBody_flatMap (cs : List Char) : ∀ acc rest : List Char,
    parseStrBody acc (cs.flatMap escChar ++ '"' :: rest) =
      some (acc.reverse ++ cs, rest) := by
  induction cs with
  | nil =>
      intro acc rest
      simp [parseStrBody]
  | cons c cs ih =>
      intro acc rest
      rw [List.flatMap_cons, List.append_assoc, parseStrBody_escChar, ih]
      simp

theorem parseStrBody_renderTail (s : String) (rest : List Char) :
    parseStrBody [] (s.data.flatMap escChar ++ '"' :: rest) = some (s.data, rest) := by
  rw [parseStrBody_flatMap]
  rfl

theorem skipWs_not_ws {c : Char} (h : isJsonWs c = false) (r : List Char) :
    skipWs (c :: r) = c :: r := by
  simp [skipWs, h]

theorem skipWs_space (r : List Char) : skipWs (' ' :: r) = skipWs r := by
  simp [skipWs, isJsonWs]

theorem string_mk_data (s : String) : String.mk s.data = s := rfl

theorem skipWs_colon (r : List Char) : skipWs (':' :: r) = ':' :: r := rfl

theorem skipWs_quote (r : List Char) : skipWs ('"' :: r) = '"' :: r := rfl

theorem skipWs_comma (r : List Char) : skipWs (',' :: r) = ',' :: r := rfl

theorem skipWs_rbrace (r : List Char) : skipWs ('}' :: r) = '}' :: r := rfl

theorem skipWs_renderMembers_cons (k v : String) (tl : List (String × String))
    (x : List Char) :
    skipWs (renderMembers ((k, v) :: tl) ++ x) = renderMembers ((k, v) :: tl) ++ x := by
  cases tl with
  | nil => simp [renderMembers, renderStrL, List.cons_append, skipWs_quote]
  | cons m tl => simp [renderMembers, renderStrL, List.cons_append, skipWs_quote]

set_option maxHeartbeats 1000000 in
theorem parseMembersAux_render :
    ∀ (ms : List (String × String)) (k v : String) (fuel : Nat) (rest : List Char),
      ms.length ≤ fuel →
      parseMembersAux fuel (renderMembers ((k, v) :: ms) ++ '}' :: rest) =
        some ((k, v) :: ms, rest) := by
  intro ms
  induction ms with
  | nil =>
      intro k v fuel rest _
      simp only [renderMembers, renderStrL, List.cons_append, List.append_assoc,
        List.nil_append]
      simp [parseMembersAux, parseStrBody_renderTail, skipWs_colon, skipWs_space,
        skipWs_quote, skipWs_rbrace, string_mk_data]
  | cons m tl ih =>
      intro k v fuel rest hfuel
      obtain ⟨k2, v2⟩ := m
      simp only [renderMembers, renderStrL, List.cons_append, List.append_assoc,
        List.nil_append]
      match fuel, hfuel with
      | fuel + 1, hfuel =>
        have hh := ih k2 v2 fuel rest (by simp at hfuel; omega)
        simp only [renderMembers, renderStrL, List.cons_append, List.append_assoc,
          List.nil_append] at hh
        simp [parseMembersAux, parseStrBody_renderTail, skipWs_colon, skipWs_space,
          skipWs_quote, skipWs_rbrace, skipWs_comma, string_mk_data,
          skipWs_renderMembers_cons, hh]

theorem skipWs_lbrace (r : List Char) : skipWs ('{' :: r) = '{' :: r := rfl

theorem string_mk_length (l : List Char) : (String.mk l).length = l.length := rfl

theorem string_mk_data2 (l : List Char) : (String.mk l).data = l := rfl

theorem renderMembers_length_ge :
    ∀ ms : List (String × String), ms.length ≤ (renderMembers ms).length := by
  intro ms
  induction ms with
  | nil => exact Nat.le_refl _
  | cons m tl ih =>
      obtain ⟨k, v⟩ := m
      cases tl with
      | nil => simp [renderMembers, renderStrL]
      | cons m2 tl2 =>
          simp only [renderMembers, renderStrL, List.length_append, List.length_cons]
          simp only [List.length_cons] at ih
          simp
          omega

theorem skipWs_nil : skipWs [] = [] := rfl

theorem renderMembers_cons_head (k v : String) (tl : List (String × String)) :
    ∃ t, renderMembers ((k, v) :: tl) = '"' :: t := by
  cases tl with
  | nil => exact ⟨_, rfl⟩
  | cons m tl => exact ⟨_, rfl⟩

/-- The `json.dumps` / `json.loads` round trip on flat string-valued objects:
parsing the emitted text recovers exactly the members, in order. -/
theorem parseJsonObj_dumpsObj (ms : List (String × String)) :
    parseJsonObj (dumpsObj ms) = some ms := by
  cases ms with
  | nil => rfl
  | cons m tl =>
      obtain ⟨k, v⟩ := m
      obtain ⟨t, ht⟩ := renderMembers_cons_head k v tl
      have hlen2 : tl.length ≤ ('{' :: (renderMembers ((k, v) :: tl) ++ ['}'])).length := by
        have h1 := renderMembers_length_ge ((k, v) :: tl)
        simp at h1 ⊢
        omega
      simp only [parseJsonObj, dumpsObj, string_mk_data2, string_mk_length]
      generalize hN : ('{' :: (renderMembers ((k, v) :: tl) ++ ['}'])).length = N at hlen2 ⊢
      have hmain := parseMembersAux_render tl k v N [] hlen2
      rw [ht] at hmain ⊢
      simp only [List.cons_append] at hmain ⊢
      simp [skipWs_lbrace, skipWs_quote, hmain, skipWs_nil]

theorem toHexDigit_ne_newline : ∀ d : Nat, d < 16 → toHexDigit d ≠ '\n' := by
  decide

theorem newline_not_mem_hex4L (n : Nat) : '\n' ∉ hex4L n := by
  have h16 : ∀ k : Nat, k % 16 < 16 := fun k => Nat.mod_lt _ (by omega)
  simp only [hex4L, List.mem_cons, List.mem_singleton, List.not_mem_nil]
  intro h
  rcases h with h | h | h | h | h
  all_goals first
    | exact toHexDigit_ne_newline _ (h16 _) h.symm
    | exact h

theorem escChar_no_newline (c : Char) : '\n' ∉ escChar c := by
  simp only [escChar]
  split_ifs with h1 h2 h3 h4 h5 h6 h7 hpr hbmp
  · decide
  · decide
  · decide
  · decide
  · decide
  · decide
  · decide
  · intro hm
    simp only [List.mem_singleton] at hm
    subst hm
    revert hpr
    decide
  · intro hm
    simp only [List.mem_cons] at hm
    rcases hm with h | h | h
    · exact absurd h (by decide)
    · exact absurd h (by decide)
    · exact newline_not_mem_hex4L _ h
  · intro hm
    simp only [List.cons_append, List.mem_cons, List.mem_append] at hm
    rcases hm with h | h | h | h
    · exact absurd h (by decide)
    · exact absurd h (by decide)
    · exact newline_not_mem_hex4L _ h
    · rcases h with h | h | h
      · exact absurd h (by decide)
      · exact absurd h (by decide)
      · exact newline_not_mem_hex4L _ h

theorem newline_not_mem_renderStrL (s : String) : '\n' ∉ renderStrL s := by
  simp only [renderStrL, List.mem_cons, List.mem_append, List.mem_singleton]
  intro h
  rcases h with h | h | h
  · exact absurd h (by decide)
  · rcases List.mem_flatMap.mp h with ⟨c, _, hc⟩
    exact escChar_no_newline c hc
  · exact absurd h (by decide)

theorem newline_not_mem_renderMembers :
    ∀ ms : List (String × String), '\n' ∉ renderMembers ms := by
  intro ms
  induction ms with
  | nil => exact List.not_mem_nil _
  | cons m tl ih =>
      obtain ⟨k, v⟩ := m
      cases tl with
      | nil =>
          simp only [renderMembers, List.mem_append, List.mem_cons]
          intro h
          rcases h with h | h | h | h
          · exact newline_not_mem_renderStrL k h
          · exact absurd h (by decide)
          · exact absurd h (by decide)
          · exact newline_not_mem_renderStrL v h
      | cons m2 tl2 =>
          intro h
          simp only [renderMembers, List.mem_append, List.mem_cons] at h
          rcases h with (h | h | h | h) | h | h | h
          · exact newline_not_mem_renderStrL k h
          · exact absurd h (by decide)
          · exact absurd h (by decide)
          · exact newline_not_mem_renderStrL v h
          · exact absurd h (by decide)
          · exact absurd h (by decide)
          · exact ih h

/-- The emitted line is a single line: `json.dumps` without `indent` never
produces a newline. -/
theorem dumpsObj_no_newline (ms : List (String × String)) :
    '\n' ∉ (dumpsObj ms).data := by
  simp only [dumpsObj, string_mk_data2, List.mem_cons, List.mem_append,
    List.mem_singleton]
  intro h
  rcases h with h | h | h
  · exact absurd h (by decide)
  · exact newline_not_mem_renderMembers ms h
  · exact absurd h (by decide)

/-! ### Shape and characterization lemmas for the sink builders and router -/

theorem console_setup_shape (cfg : List (String × Yaml)) (ch : Handler)
    (h : ConsoleLogger.setup cfg = Except.ok ch) : ∃ l, ch = Handler.stream l := by
  unfold ConsoleLogger.setup at h
  simp only [Bind.bind] at h
  cases hsec : subscript cfg "console" with
  | error e => rw [hsec] at h; simp [Except.bind] at h
  | ok sec =>
      rw [hsec] at h
      simp only [Except.bind] at h
      cases hm : asMap sec with
      | error e => rw [hm] at h; simp [Except.bind] at h
      | ok secm =>
          rw [hm] at h
          simp only [Except.bind] at h
          cases hl : getattrLevel (yget secm "logger_console_handler_level" (Yaml.ystr "INFO")) with
          | error e => rw [hl] at h; simp [Functor.map, Except.map] at h
          | ok lvl =>
              rw [hl] at h
              simp only [Functor.map, Except.map, pure, Except.pure, Except.ok.injEq] at h
              exact ⟨lvl, h.symm⟩

theorem file_setup_shape (cfg : List (String × Yaml)) (fh : Handler)
    (h : FileLogger.setup cfg = Except.ok fh) :
    ∃ fn mb bc l, fh = Handler.rotatingFile fn mb bc l := by
  unfold FileLogger.setup at h
  simp only [Bind.bind] at h
  cases hsec : subscript cfg "file" with
  | error e => rw [hsec] at h; simp [Except.bind] at h
  | ok sec =>
      rw [hsec] at h
      simp only [Except.bind] at h
      cases hm : asMap sec with
      | error e => rw [hm] at h; simp [Except.bind] at h
      | ok secm =>
          rw [hm] at h
          simp only [Except.bind] at h
          cases hcw : cmpWithZero (yget secm "logger_max_bytes" (Yaml.yint 10485760)) with
          | error e => rw [hcw] at h; simp at h
          | ok u =>
          rw [hcw] at h
          dsimp only at h
          cases hfn : expectStr (yget secm "logger_file_name" (Yaml.ystr "app.log")) with
          | error e => rw [hfn] at h; simp [Except.bind] at h
          | ok fn =>
              rw [hfn] at h
              simp only [Except.bind] at h
              cases hl : getattrLevel (yget secm "logger_file_handler_level" (Yaml.ystr "DEBUG")) with
              | error e => rw [hl] at h; simp [Functor.map, Except.map] at h
              | ok lvl =>
                  rw [hl] at h
                  simp only [Functor.map, Except.map, pure, Except.pure, Except.ok.injEq] at h
                  exact ⟨fn, _, _, lvl, h.symm⟩

theorem remote_setup_shape (cfg : List (String × Yaml)) (rh : Handler)
    (h : RemoteLogger.setup cfg = Except.ok (some rh)) :
    ∃ host url l, rh = Handler.http host url "POST" l := by
  unfold RemoteLogger.setup at h
  simp only [Bind.bind] at h
  cases hsec : subscript cfg "remote" with
  | error e => rw [hsec] at h; simp [Except.bind] at h
  | ok sec =>
      rw [hsec] at h
      simp only [Except.bind] at h
      cases hm : asMap sec with
      | error e => rw [hm] at h; simp [Except.bind] at h
      | ok secm =>
          rw [hm] at h
          simp only [Except.bind] at h
          by_cases hcond : ((!isNONE (yget secm "logger_remote_handler_level" (Yaml.ystr "WARNING"))) = true ∧
              truthy (yget secm "logger_remote_logging_url" Yaml.ynull) = true)
          · rw [if_pos hcond] at h
            cases hu : expectStr (yget secm "logger_remote_logging_url" Yaml.ynull) with
            | error e => rw [hu] at h; simp at h
            | ok urlStr =>
                rw [hu] at h
                dsimp only at h
                cases hpu : urlparse urlStr with
                | error e => rw [hpu] at h; simp at h
                | ok pu =>
                rw [hpu] at h
                dsimp only at h
                cases hp : pu.portRead with
                | error e => rw [hp] at h; simp at h
                | ok port =>
                    rw [hp] at h
                    dsimp only at h
                    cases hl : getattrLevel (yget secm "logger_remote_handler_level" (Yaml.ystr "WARNING")) with
                    | error e => rw [hl] at h; simp at h
                    | ok lvl =>
                        rw [hl] at h
                        dsimp only at h
                        simp [pure, Except.pure] at h
                        exact ⟨_, _, lvl, h.symm⟩
          · rw [if_neg hcond] at h
            simp [pure, Except.pure] at h

/-- Characterization of `get_handlers_with_listeners` when the three sink
sections are present as mappings and the three builders succeed: sinks are
processed in the order console, file, remote; a `None` handler is skipped;
an async sink contributes the shared `queue_handler` (queue identity `n0`,
the router's own base instance) plus a listener on that same queue; a
synchronous sink contributes its own handler directly. -/
theorem routeSinks_char (cfg : List (String × Yaml)) (n0 : Nat)
    (cs fs rs : List (String × Yaml)) (ch fh : Handler) (ro : Option Handler)
    (hc : lookupY cfg "console" = some (Yaml.ymap cs))
    (hf : lookupY cfg "file" = some (Yaml.ymap fs))
    (hr : lookupY cfg "remote" = some (Yaml.ymap rs))
    (hch : ConsoleLogger.setup cfg = Except.ok ch)
    (hfh : FileLogger.setup cfg = Except.ok fh)
    (hrh : RemoteLogger.setup cfg = Except.ok ro) :
    get_handlers_with_listeners cfg n0 = Except.ok
      ((if truthy (yget cs "async" (Yaml.ybool false)) then [Handler.queueHandler n0] else [ch]) ++
       (if truthy (yget fs "async" (Yaml.ybool false)) then [Handler.queueHandler n0] else [fh]) ++
       (if truthy (yget rs "async" (Yaml.ybool false))
        then ro.toList.map (fun _ => Handler.queueHandler n0) else ro.toList),
       (if truthy (yget cs "async" (Yaml.ybool false)) then [Listener.mk n0 ch] else []) ++
       (if truthy (yget fs "async" (Yaml.ybool false)) then [Listener.mk n0 fh] else []) ++
       (if truthy (yget rs "async" (Yaml.ybool false))
        then ro.toList.map (fun rh => Listener.mk n0 rh) else []),
       n0 + 4) := by
  cases hac : truthy (yget cs "async" (Yaml.ybool false)) <;>
    cases haf : truthy (yget fs "async" (Yaml.ybool false)) <;>
      cases har : truthy (yget rs "async" (Yaml.ybool false)) <;>
        cases ro
  all_goals
    simp [get_handlers_with_listeners, routeSinks, subscript, hc, hf, hr,
      SinkKind.logType, asMap, sinkSetup, hch, hfh, hrh, hac, haf, har,
      Except.map, Bind.bind, Except.bind, pure, Except.pure, Functor.map]

/-- Occurring exactly once in a list: the list splits around the element and
neither side contains it again. -/
def attachedOnce {α : Type} (x : α) (xs : List α) : Prop :=
  ∃ pre post, xs = pre ++ x :: post ∧ x ∉ pre ∧ x ∉ post

/-- C7: the delivery router processes the three sink kinds in the fixed order
console, file, remote; a sink whose builder yields no handler is skipped
entirely; an async-marked sink is not attached directly — the single shared
queue-forwarding handler (queue `n0`, owned by the router's base instance)
is attached and the sink's real handler is registered with its own listener
bound to that one shared queue — while a synchronous sink's handler is
attached directly. -/
theorem claim_C7_router_order (cfg : List (String × Yaml)) (n0 : Nat)
    (cs fs rs : List (String × Yaml)) (ch fh : Handler) (ro : Option Handler)
    (hc : lookupY cfg "console" = some (Yaml.ymap cs))
    (hf : lookupY cfg "file" = some (Yaml.ymap fs))
    (hr : lookupY cfg "remote" = some (Yaml.ymap rs))
    (hch : ConsoleLogger.setup cfg = Except.ok ch)
    (hfh : FileLogger.setup cfg = Except.ok fh)
    (hrh : RemoteLogger.setup cfg = Except.ok ro) :
    get_handlers_with_listeners cfg n0 = Except.ok
      ((if truthy (yget cs "async" (Yaml.ybool false)) then [Handler.queueHandler n0] else [ch]) ++
       (if truthy (yget fs "async" (Yaml.ybool false)) then [Handler.queueHandler n0] else [fh]) ++
       (if truthy (yget rs "async" (Yaml.ybool false))
        then ro.toList.map (fun _ => Handler.queueHandler n0) else ro.toList),
       (if truthy (yget cs "async" (Yaml.ybool false)) then [Listener.mk n0 ch] else []) ++
       (if truthy (yget fs "async" (Yaml.ybool false)) then [Listener.mk n0 fh] else []) ++
       (if truthy (yget rs "async" (Yaml.ybool false))
        then ro.toList.map (fun rh => Listener.mk n0 rh) else []),
       n0 + 4) :=
  routeSinks_char cfg n0 cs fs rs ch fh ro hc hf hr hch hfh hrh

/-- Concrete configuration used as the C7 witness: console async, file
synchronous, remote absent-URL (skipped). -/
def cfgC7 : List (String × Yaml) :=
  [("console", Yaml.ymap [("async", Yaml.ybool true)]),
   ("file", Yaml.ymap []),
   ("remote", Yaml.ymap [])]

theorem claim_C7_witness :
    get_handlers_with_listeners cfgC7 0 = Except.ok
      ([Handler.queueHandler 0,
        Handler.rotatingFile "app.log" (Yaml.yint 10485760) (Yaml.yint 3) 10],
       [Listener.mk 0 (Handler.stream 20)], 4) := by
  have h := claim_C7_router_order cfgC7 0
    [("async", Yaml.ybool true)] [] [] (Handler.stream 20)
    (Handler.rotatingFile "app.log" (Yaml.yint 10485760) (Yaml.yint 3) 10) none
    rfl rfl rfl rfl rfl rfl
  simpa using h

/-- C1 (amended): when each of the three sink sections is present as a
mapping and the three builders succeed (in particular a remote sink with no
URL yields `None` rather than failing), building the sinks and the routing
completes without error, and the absent remote sink contributes no handler:
only two handlers result and none of them is an `HTTPHandler`. -/
theorem claim_C1_sections_present (cfg : List (String × Yaml)) (n0 : Nat)
    (cs fs rs : List (String × Yaml)) (ch fh : Handler) (ro : Option Handler)
    (hc : lookupY cfg "console" = some (Yaml.ymap cs))
    (hf : lookupY cfg "file" = some (Yaml.ymap fs))
    (hr : lookupY cfg "remote" = some (Yaml.ymap rs))
    (hch : ConsoleLogger.setup cfg = Except.ok ch)
    (hfh : FileLogger.setup cfg = Except.ok fh)
    (hrh : RemoteLogger.setup cfg = Except.ok ro) :
    ∃ hs ls c, get_handlers_with_listeners cfg n0 = Except.ok (hs, ls, c) ∧
      (ro = none → hs.length = 2 ∧
        ∀ h ∈ hs, ∀ host url me lv, h ≠ Handler.http host url me lv) := by
  obtain ⟨lc, rfl⟩ := console_setup_shape _ _ hch
  obtain ⟨fn, mb, bc, lf, rfl⟩ := file_setup_shape _ _ hfh
  refine ⟨_, _, _, routeSinks_char cfg n0 cs fs rs _ _ ro hc hf hr hch hfh hrh, ?_⟩
  rintro rfl
  constructor
  · cases truthy (yget cs "async" (Yaml.ybool false)) <;>
      cases truthy (yget fs "async" (Yaml.ybool false)) <;> simp
  · intro h hmem host url me lv
    simp only [Option.toList, List.map_nil, ite_self, List.append_nil,
      List.mem_append] at hmem
    rcases hmem with hmem | hmem <;> split at hmem <;> simp_all

/-- C1 (failure half): with the empty configuration mapping — exactly what
`get_config` substitutes after a failed load — the router raises `KeyError`
on the absent `console` section instead of treating it as a disabled sink. -/
theorem claim_C1_counterexample :
    get_handlers_with_listeners [] 0 = Except.error (PyErr.keyError "console") := rfl

/-- Concrete all-sections-present, remote-URL-absent configuration for the C1
witness. -/
def cfgC1 : List (String × Yaml) :=
  [("console", Yaml.ymap []), ("file", Yaml.ymap []), ("remote", Yaml.ymap [])]

theorem claim_C1_witness :
    ∃ hs ls c, get_handlers_with_listeners cfgC1 0 = Except.ok (hs, ls, c) ∧
      (none = (none : Option Handler) → hs.length = 2 ∧
        ∀ h ∈ hs, ∀ host url me lv, h ≠ Handler.http host url me lv) :=
  claim_C1_sections_present cfgC1 0 [] [] [] (Handler.stream 20)
    (Handler.rotatingFile "app.log" (Yaml.yint 10485760) (Yaml.yint 3) 10) none
    rfl rfl rfl rfl rfl rfl


theorem attachedOnce_head {α : Type} (x : α) (xs : List α) (hx : x ∉ xs) :
    attachedOnce x (x :: xs) :=
  ⟨[], xs, rfl, by simp, hx⟩

theorem attachedOnce_cons {α : Type} (x y : α) (xs : List α) (hxy : x ≠ y)
    (h : attachedOnce x xs) : attachedOnce x (y :: xs) := by
  obtain ⟨pre, post, rfl, hp, hq⟩ := h
  exact ⟨y :: pre, post, rfl, by simp [hxy, hp], hq⟩

/-- C8: after routing, every configured, non-absent sink is attached exactly
once: a synchronous sink's own handler occurs exactly once among the
attached handlers, and an asynchronous sink's listener (bound to the shared
queue `n0`) occurs exactly once among the started listeners. -/
theorem claim_C8_attached_exactly_once (cfg : List (String × Yaml)) (n0 : Nat)
    (cs fs rs : List (String × Yaml)) (ch fh : Handler) (ro : Option Handler)
    (hc : lookupY cfg "console" = some (Yaml.ymap cs))
    (hf : lookupY cfg "file" = some (Yaml.ymap fs))
    (hr : lookupY cfg "remote" = some (Yaml.ymap rs))
    (hch : ConsoleLogger.setup cfg = Except.ok ch)
    (hfh : FileLogger.setup cfg = Except.ok fh)
    (hrh : RemoteLogger.setup cfg = Except.ok ro)
    (hs : List Handler) (ls : List Listener) (c : Nat)
    (hout : get_handlers_with_listeners cfg n0 = Except.ok (hs, ls, c)) :
    (truthy (yget cs "async" (Yaml.ybool false)) = false → attachedOnce ch hs) ∧
    (truthy (yget cs "async" (Yaml.ybool false)) = true →
      attachedOnce (Listener.mk n0 ch) ls) ∧
    (truthy (yget fs "async" (Yaml.ybool false)) = false → attachedOnce fh hs) ∧
    (truthy (yget fs "async" (Yaml.ybool false)) = true →
      attachedOnce (Listener.mk n0 fh) ls) ∧
    (∀ rh, ro = some rh →
      (truthy (yget rs "async" (Yaml.ybool false)) = false → attachedOnce rh hs) ∧
      (truthy (yget rs "async" (Yaml.ybool false)) = true →
        attachedOnce (Listener.mk n0 rh) ls)) := by
  obtain ⟨lc, rfl⟩ := console_setup_shape _ _ hch
  obtain ⟨fn, mb, bc, lf, rfl⟩ := file_setup_shape _ _ hfh
  have hchar := routeSinks_char cfg n0 cs fs rs _ _ ro hc hf hr hch hfh hrh
  rw [hout] at hchar
  simp only [Except.ok.injEq, Prod.mk.injEq] at hchar
  obtain ⟨hhs, hls, -⟩ := hchar
  subst hhs
  subst hls
  have hYs : Handler.stream lc ∉
      (if truthy (yget rs "async" (Yaml.ybool false))
       then ro.toList.map (fun _ => Handler.queueHandler n0) else ro.toList) := by
    rcases ro with _ | rh
    · split <;> simp
    · obtain ⟨ho, u, lr, rfl⟩ := remote_setup_shape _ _ hrh
      split <;> simp
  have hYf : Handler.rotatingFile fn mb bc lf ∉
      (if truthy (yget rs "async" (Yaml.ybool false))
       then ro.toList.map (fun _ => Handler.queueHandler n0) else ro.toList) := by
    rcases ro with _ | rh
    · split <;> simp
    · obtain ⟨ho, u, lr, rfl⟩ := remote_setup_shape _ _ hrh
      split <;> simp
  have hLs : Listener.mk n0 (Handler.stream lc) ∉
      (if truthy (yget rs "async" (Yaml.ybool false))
       then ro.toList.map (fun rh => Listener.mk n0 rh) else []) := by
    rcases ro with _ | rh
    · split <;> simp
    · obtain ⟨ho, u, lr, rfl⟩ := remote_setup_shape _ _ hrh
      split <;> simp
  have hLf : Listener.mk n0 (Handler.rotatingFile fn mb bc lf) ∉
      (if truthy (yget rs "async" (Yaml.ybool false))
       then ro.toList.map (fun rh => Listener.mk n0 rh) else []) := by
    rcases ro with _ | rh
    · split <;> simp
    · obtain ⟨ho, u, lr, rfl⟩ := remote_setup_shape _ _ hrh
      split <;> simp
  refine ⟨?_, ?_, ?_, ?_, ?_⟩
  · intro hac
    simp only [hac, Bool.false_eq_true, if_false]
    refine attachedOnce_head _ _ ?_
    simp only [List.append_eq, List.nil_append, List.mem_append]
    rintro (hm | hm)
    · split at hm <;> simp_all
    · exact hYs hm
  · intro hac
    simp only [hac, if_true]
    refine attachedOnce_head _ _ ?_
    simp only [List.append_eq, List.nil_append, List.mem_append]
    rintro (hm | hm)
    · split at hm <;> simp_all
    · exact hLs hm
  · intro haf
    simp only [haf, Bool.false_eq_true, if_false]
    cases hacb : truthy (yget cs "async" (Yaml.ybool false)) <;>
      simp only [hacb, Bool.false_eq_true, if_false, if_true] <;>
      refine attachedOnce_cons _ _ _ (by simp) (attachedOnce_head _ _ ?_) <;>
      exact hYf
  · intro haf
    simp only [haf, if_true]
    cases hacb : truthy (yget cs "async" (Yaml.ybool false)) <;>
      simp only [hacb, Bool.false_eq_true, if_false, if_true]
    · exact attachedOnce_head _ _ hLf
    · exact attachedOnce_cons _ _ _ (by simp) (attachedOnce_head _ _ hLf)
  · intro rh hro
    subst hro
    obtain ⟨ho, u, lr, rfl⟩ := remote_setup_shape _ _ hrh
    constructor
    · intro har
      simp only [har, Bool.false_eq_true, if_false, Option.toList]
      refine ⟨(if truthy (yget cs "async" (Yaml.ybool false)) then [Handler.queueHandler n0]
          else [Handler.stream lc]) ++
        (if truthy (yget fs "async" (Yaml.ybool false)) then [Handler.queueHandler n0]
          else [Handler.rotatingFile fn mb bc lf]), [], by simp, ?_, by simp⟩
      simp only [List.mem_append]
      rintro (hm | hm) <;> (split at hm <;> simp_all)
    · intro har
      simp only [har, if_true, Option.toList, List.map]
      refine ⟨(if truthy (yget cs "async" (Yaml.ybool false))
            then [Listener.mk n0 (Handler.stream lc)] else []) ++
        (if truthy (yget fs "async" (Yaml.ybool false))
            then [Listener.mk n0 (Handler.rotatingFile fn mb bc lf)] else []), [],
        by simp, ?_, by simp⟩
      simp only [List.mem_append]
      rintro (hm | hm) <;> (split at hm <;> simp_all)

/-- Is this handler the queue-forwarding `QueueHandler`? -/
def isQueueH : Handler → Bool
  | Handler.queueHandler _ => true
  | _ => false

/-- C10: the routing result has exactly one listener per async-marked sink
whose builder yields a handler, every listener bound to the single queue of
the router's one base instance (`n0`); the handlers list has one entry per
non-absent sink, the async entries all being the one shared queue handler
(queue `n0`) and the synchronous entries the sinks' own pairwise distinct
handlers. -/
theorem claim_C10_router_invariants (cfg : List (String × Yaml)) (n0 : Nat)
    (cs fs rs : List (String × Yaml)) (ch fh : Handler) (ro : Option Handler)
    (hc : lookupY cfg "console" = some (Yaml.ymap cs))
    (hf : lookupY cfg "file" = some (Yaml.ymap fs))
    (hr : lookupY cfg "remote" = some (Yaml.ymap rs))
    (hch : ConsoleLogger.setup cfg = Except.ok ch)
    (hfh : FileLogger.setup cfg = Except.ok fh)
    (hrh : RemoteLogger.setup cfg = Except.ok ro)
    (hs : List Handler) (ls : List Listener) (c : Nat)
    (hout : get_handlers_with_listeners cfg n0 = Except.ok (hs, ls, c)) :
    ls.length = ((if truthy (yget cs "async" (Yaml.ybool false)) then 1 else 0) +
      (if truthy (yget fs "async" (Yaml.ybool false)) then 1 else 0) +
      (if truthy (yget rs "async" (Yaml.ybool false)) then ro.toList.length else 0)) ∧
    (∀ l ∈ ls, l.qid = n0) ∧
    hs.length = 2 + ro.toList.length ∧
    (∀ h ∈ hs, isQueueH h = true → h = Handler.queueHandler n0) ∧
    (hs.filter isQueueH).length =
      ((if truthy (yget cs "async" (Yaml.ybool false)) then 1 else 0) +
       (if truthy (yget fs "async" (Yaml.ybool false)) then 1 else 0) +
       (if truthy (yget rs "async" (Yaml.ybool false)) then ro.toList.length else 0)) ∧
    (∀ h ∈ hs, isQueueH h = false → h = ch ∨ h = fh ∨ ro = some h) ∧
    ch ≠ fh ∧ (∀ rh, ro = some rh → rh ≠ ch ∧ rh ≠ fh) := by
  obtain ⟨lc, rfl⟩ := console_setup_shape _ _ hch
  obtain ⟨fn, mb, bc, lf, rfl⟩ := file_setup_shape _ _ hfh
  have hchar := routeSinks_char cfg n0 cs fs rs _ _ ro hc hf hr hch hfh hrh
  rw [hout] at hchar
  simp only [Except.ok.injEq, Prod.mk.injEq] at hchar
  obtain ⟨hhs, hls, -⟩ := hchar
  subst hhs
  subst hls
  rcases ro with _ | rh
  · cases hac : truthy (yget cs "async" (Yaml.ybool false)) <;>
      cases haf : truthy (yget fs "async" (Yaml.ybool false)) <;>
        cases har : truthy (yget rs "async" (Yaml.ybool false)) <;>
          simp_all [isQueueH]
  · obtain ⟨ho, u, lr, rfl⟩ := remote_setup_shape _ _ hrh
    cases hac : truthy (yget cs "async" (Yaml.ybool false)) <;>
      cases haf : truthy (yget fs "async" (Yaml.ybool false)) <;>
        cases har : truthy (yget rs "async" (Yaml.ybool false)) <;>
          simp_all [isQueueH]

/-- The record of `info("x")` on the default-named logger. -/
def exInfoRecord : LogRecord :=
  { created := 0, levelno := 20, levelname := "INFO", name := "APP", msg := "x", args := [] }

/-- The record of `warning("y")` on the default-named logger. -/
def exWarnRecord : LogRecord :=
  { created := 0, levelno := 30, levelname := "WARNING", name := "APP", msg := "y", args := [] }

/-- The console section of the spec's example, with the file and remote
sections present as empty mappings (the remote sink then yields no
handler). -/
def cfgC3m : List (String × Yaml) :=
  [("console", Yaml.ymap [("logger_console_handler_level", Yaml.ystr "WARNING"),
      ("async", Yaml.ybool false)]),
   ("file", Yaml.ymap []),
   ("remote", Yaml.ymap [])]

/-- The spec's example configuration read literally: only the console
section. -/
def exConfigOnlyConsole : Yaml :=
  Yaml.ymap [("console", Yaml.ymap [("logger_console_handler_level", Yaml.ystr "WARNING"),
      ("async", Yaml.ybool false)])]

/-- C3 (amended): with the three sink sections present and all marked
synchronous, assembly succeeds with no listeners and exactly the built
handlers attached, and each attached sink emits exactly the subset of the
five severity-keyed calls whose severity meets or exceeds that sink's
threshold; in particular, with console at WARNING, `info("x")` then
`warning("y")` leaves only the warning record in the console output. -/
theorem claim_C3_sync_threshold_filtering (cfg : List (String × Yaml)) (n0 : Nat)
    (cs fs rs : List (String × Yaml)) (ch fh : Handler) (ro : Option Handler)
    (nm : String)
    (hc : lookupY cfg "console" = some (Yaml.ymap cs))
    (hf : lookupY cfg "file" = some (Yaml.ymap fs))
    (hr : lookupY cfg "remote" = some (Yaml.ymap rs))
    (hch : ConsoleLogger.setup cfg = Except.ok ch)
    (hfh : FileLogger.setup cfg = Except.ok fh)
    (hrh : RemoteLogger.setup cfg = Except.ok ro)
    (hac : truthy (yget cs "async" (Yaml.ybool false)) = false)
    (haf : truthy (yget fs "async" (Yaml.ybool false)) = false)
    (har : truthy (yget rs "async" (Yaml.ybool false)) = false)
    (hname : expectStr (yget cfg "logger_name" (Yaml.ystr "APP")) = Except.ok nm) :
    LoggerFactory.setup (Yaml.ymap cfg) n0 =
      Except.ok
        { name := nm
          level := 10
          handlers := [ch, fh] ++ ro.toList
          listeners := [] } ∧
    (∀ h, h ∈ [ch, fh] ++ ro.toList → ∀ t m1 m2 m3 m4 m5,
      handlerEmits 10 h (fiveCalls nm t m1 m2 m3 m4 m5) =
        (fiveCalls nm t m1 m2 m3 m4 m5).filter (fun r => h.level ≤ r.levelno)) ∧
    (LoggerFactory.setup (Yaml.ymap cfgC3m) 0 = Except.ok
      { name := "APP"
        level := 10
        handlers := [Handler.stream 30,
          Handler.rotatingFile "app.log" (Yaml.yint 10485760) (Yaml.yint 3) 10]
        listeners := [] } ∧
     handlerEmits 10 (Handler.stream 30) [exInfoRecord, exWarnRecord] = [exWarnRecord]) := by
  have hrt := routeSinks_char cfg n0 cs fs rs ch fh ro hc hf hr hch hfh hrh
  simp only [hac, haf, har, Bool.false_eq_true, if_false] at hrt
  refine ⟨?_, ?_, by exact ⟨rfl, rfl⟩⟩
  · simp [LoggerFactory.setup, asMap, Bind.bind, Except.bind, hname, hrt, pure,
      Except.pure]
  · intro h hmem t m1 m2 m3 m4 m5
    simp [handlerEmits, fiveCalls, List.filter]

/-- C3 (failure half): the spec's example configuration taken literally —
only a console section — makes assembly raise `KeyError` on the absent
`file` section; no logger is produced at all, although every sink counts as
synchronous under the defaults. -/
theorem claim_C3_counterexample :
    LoggerFactory.setup exConfigOnlyConsole 0 = Except.error (PyErr.keyError "file") := rfl

theorem claim_C3_witness :
    LoggerFactory.setup (Yaml.ymap cfgC3m) 0 = Except.ok
      { name := "APP"
        level := 10
        handlers := [Handler.stream 30,
          Handler.rotatingFile "app.log" (Yaml.yint 10485760) (Yaml.yint 3) 10]
        listeners := [] } :=
  (claim_C3_sync_threshold_filtering cfgC3m 0
    [("logger_console_handler_level", Yaml.ystr "WARNING"), ("async", Yaml.ybool false)]
    [] [] (Handler.stream 30)
    (Handler.rotatingFile "app.log" (Yaml.yint 10485760) (Yaml.yint 3) 10) none "APP"
    rfl rfl rfl rfl rfl rfl rfl rfl rfl rfl).1

/-- Concrete configuration for the C8 witness: console async, file
synchronous, remote async with a URL. -/
def cfgC8 : List (String × Yaml) :=
  [("console", Yaml.ymap [("async", Yaml.ybool true)]),
   ("file", Yaml.ymap []),
   ("remote", Yaml.ymap [("async", Yaml.ybool true),
      ("logger_remote_logging_url", Yaml.ystr "http://h/p")])]

theorem claim_C8_witness :
    attachedOnce (Handler.rotatingFile "app.log" (Yaml.yint 10485760) (Yaml.yint 3) 10)
      [Handler.queueHandler 0,
       Handler.rotatingFile "app.log" (Yaml.yint 10485760) (Yaml.yint 3) 10,
       Handler.queueHandler 0] ∧
    attachedOnce (Listener.mk 0 (Handler.stream 20))
      [Listener.mk 0 (Handler.stream 20),
       Listener.mk 0 (Handler.http "h:80" "/p" "POST" 30)] :=
  have h := claim_C8_attached_exactly_once cfgC8 0
    [("async", Yaml.ybool true)] []
    [("async", Yaml.ybool true), ("logger_remote_logging_url", Yaml.ystr "http://h/p")]
    (Handler.stream 20)
    (Handler.rotatingFile "app.log" (Yaml.yint 10485760) (Yaml.yint 3) 10)
    (some (Handler.http "h:80" "/p" "POST" 30))
    rfl rfl rfl rfl rfl rfl
    [Handler.queueHandler 0,
     Handler.rotatingFile "app.log" (Yaml.yint 10485760) (Yaml.yint 3) 10,
     Handler.queueHandler 0]
    [Listener.mk 0 (Handler.stream 20),
     Listener.mk 0 (Handler.http "h:80" "/p" "POST" 30)] 4 rfl
  ⟨h.2.2.1 rfl, h.2.1 rfl⟩

/-- Concrete configuration for the C10 witness: file async, console and
remote synchronous, remote URL absent. -/
def cfgC10 : List (String × Yaml) :=
  [("console", Yaml.ymap []),
   ("file", Yaml.ymap [("async", Yaml.ybool true)]),
   ("remote", Yaml.ymap [])]

theorem claim_C10_witness :
    (∀ l ∈ [Listener.mk 0 (Handler.rotatingFile "app.log" (Yaml.yint 10485760) (Yaml.yint 3) 10)],
        l.qid = 0) ∧
    [Handler.stream 20, Handler.queueHandler 0].length =
      2 + (none : Option Handler).toList.length :=
  have h := claim_C10_router_invariants cfgC10 0
    [] [("async", Yaml.ybool true)] []
    (Handler.stream 20)
    (Handler.rotatingFile "app.log" (Yaml.yint 10485760) (Yaml.yint 3) 10)
    none rfl rfl rfl rfl rfl rfl
    [Handler.stream 20, Handler.queueHandler 0]
    [Listener.mk 0 (Handler.rotatingFile "app.log" (Yaml.yint 10485760) (Yaml.yint 3) 10)]
    4 rfl
  ⟨h.2.1, h.2.2.1⟩

/-- C2: when `JSONFormatter.format` produces a line, that line is the compact
JSON object with exactly the four keys `timestamp`, `level`, `name`,
`message`, in that order, all values strings (no nesting, no extra fields),
with no newline (no pretty-printing); and parsing the emitted line back
yields exactly those four members and no others. -/
theorem claim_C2_format_roundtrip (datefmt : Option String) (r : LogRecord)
    (line : String) (h : JSONFormatter.format datefmt r = some line) :
    ∃ m, getMessage r = some m ∧
      parseJsonObj line =
        some [("timestamp", formatTime datefmt r.created), ("level", r.levelname),
          ("name", r.name), ("message", m)] ∧
      (parseJsonObj line).map (fun fields => fields.map Prod.fst) =
        some ["timestamp", "level", "name", "message"] ∧
      '\n' ∉ line.data := by
  unfold JSONFormatter.format at h
  cases hm : getMessage r with
  | none => rw [hm] at h; exact Option.noConfusion h
  | some m =>
      rw [hm] at h
      simp only [Option.map_some', Option.some.injEq] at h
      subst h
      exact ⟨m, rfl, parseJsonObj_dumpsObj _, by rw [parseJsonObj_dumpsObj]; rfl,
        dumpsObj_no_newline _⟩

/-- Concrete record for the C2 witness: `info("hello")` on logger `APP`. -/
def witRecordC2 : LogRecord :=
  { created := 0, levelno := 20, levelname := "INFO", name := "APP",
    msg := "hello", args := [] }

/-- The line the formatter emits for `witRecordC2`. -/
def witLineC2 : String :=
  dumpsObj [("timestamp", formatTime none 0), ("level", "INFO"), ("name", "APP"),
    ("message", "hello")]

theorem claim_C2_witness :
    JSONFormatter.format none witRecordC2 = some witLineC2 ∧
    (∃ m, getMessage witRecordC2 = some m ∧
      parseJsonObj witLineC2 =
        some [("timestamp", formatTime none witRecordC2.created),
          ("level", witRecordC2.levelname), ("name", witRecordC2.name), ("message", m)] ∧
      (parseJsonObj witLineC2).map (fun fields => fields.map Prod.fst) =
        some ["timestamp", "level", "name", "message"] ∧
      '\n' ∉ witLineC2.data) :=
  ⟨rfl, claim_C2_format_roundtrip none witRecordC2 witLineC2 rfl⟩

/-- C5 (failure half): a record produced by `logger.info("%d", "a")` — a
`%d` conversion applied to a string — makes `record.getMessage()` raise, and
`JSONFormatter.format` propagates the exception instead of substituting a
placeholder: the format call throws. -/
theorem claim_C5_counterexample :
    JSONFormatter.format none
      { created := 0, levelno := 20, levelname := "INFO", name := "APP",
        msg := "%d", args := [PyVal.pstr "a"] } = none := rfl

/-- C5 (amended): the formatter has no defensive fallback at all — `format`
throws exactly when rendering the message throws (and succeeds otherwise);
no field is ever replaced by a placeholder. -/
theorem claim_C5_format_throws_iff_message_throws (datefmt : Option String)
    (r : LogRecord) :
    (JSONFormatter.format datefmt r).isSome = (getMessage r).isSome := by
  unfold JSONFormatter.format
  cases getMessage r <;> rfl

theorem claim_C6_counterexample :
    (loadLoggerSection (LoadSource.doc Yaml.ynull)).1 = Except.error PyErr.typeError := rfl

/-- C6 (amended): the loader returns the `logger` value as-is (mapping or
not) when the parsed document is a mapping containing that key; it returns
the empty mapping with a printed diagnostic on a missing file, a YAML parse
error, or a mapping document without the key; but a document that parses to
a non-mapping raises an uncaught `TypeError`. -/
theorem claim_C6_loader_behavior :
    (∀ m v, lookupY m "logger" = some v →
      loadLoggerSection (LoadSource.doc (Yaml.ymap m)) = (Except.ok v, false)) ∧
    (∀ m, lookupY m "logger" = none →
      loadLoggerSection (LoadSource.doc (Yaml.ymap m)) = (Except.ok (Yaml.ymap []), true)) ∧
    loadLoggerSection LoadSource.fileNotFound = (Except.ok (Yaml.ymap []), true) ∧
    loadLoggerSection LoadSource.yamlError = (Except.ok (Yaml.ymap []), true) ∧
    (∀ v, (∀ m, v ≠ Yaml.ymap m) →
      loadLoggerSection (LoadSource.doc v) = (Except.error PyErr.typeError, false)) := by
  refine ⟨?_, ?_, rfl, rfl, ?_⟩
  · intro m v hm
    simp [loadLoggerSection, hm]
  · intro m hm
    simp [loadLoggerSection, hm]
  · intro v hv
    cases v with
    | ymap m => exact absurd rfl (hv m)
    | ynull => rfl
    | ybool b => rfl
    | yint n => rfl
    | ystr s => rfl

theorem claim_C6_witness :
    loadLoggerSection (LoadSource.doc (Yaml.ymap [("logger", Yaml.ymap [("x", Yaml.yint 2)])])) =
      (Except.ok (Yaml.ymap [("x", Yaml.yint 2)]), false) ∧
    loadLoggerSection (LoadSource.doc (Yaml.ymap [("other", Yaml.yint 1)])) =
      (Except.ok (Yaml.ymap []), true) ∧
    loadLoggerSection (LoadSource.doc (Yaml.ystr "oops")) =
      (Except.error PyErr.typeError, false) :=
  ⟨(claim_C6_loader_behavior).1 _ _ rfl,
   (claim_C6_loader_behavior).2.1 _ rfl,
   (claim_C6_loader_behavior).2.2.2.2 _ (fun _ h => Yaml.noConfusion h)⟩

/-- A configuration file whose `logger` section is explicitly null. -/
def srcNullSection : LoadSource :=
  LoadSource.doc (Yaml.ymap [("logger", Yaml.ynull)])

/-- A configuration file with a real `logger` section. -/
def srcRealSection : LoadSource :=
  LoadSource.doc (Yaml.ymap [("logger", Yaml.ymap [("a", Yaml.yint 1)])])

/-- C9 (failure half): when the first load finds `logger: null`, the cached
value is `None` — indistinguishable from the cache's not-yet-loaded
sentinel — so the second call reloads and returns a different value when
the configuration source has changed: the first caller does not win. -/
theorem claim_C9_counterexample :
    get_config_seq Yaml.ynull [srcNullSection, srcRealSection] =
      [Except.ok Yaml.ynull, Except.ok (Yaml.ymap [("a", Yaml.yint 1)])] ∧
    (Except.ok Yaml.ynull : Except PyErr Yaml) ≠
      Except.ok (Yaml.ymap [("a", Yaml.yint 1)]) :=
  ⟨rfl, by
    intro h
    injection h with h2
    exact Yaml.noConfusion h2⟩

theorem get_config_seq_cached (v : Yaml) (hv : v ≠ Yaml.ynull) :
    ∀ srcs : List LoadSource, get_config_seq v srcs = srcs.map (fun _ => Except.ok v) := by
  intro srcs
  induction srcs with
  | nil => rfl
  | cons src rest ih =>
      cases v with
      | ynull => exact absurd rfl hv
      | ybool b => simp [get_config_seq, get_config_step, ih]
      | yint n => simp [get_config_seq, get_config_step, ih]
      | ystr str => simp [get_config_seq, get_config_step, ih]
      | ymap m => simp [get_config_seq, get_config_step, ih]

/-- C9 (amended): the configuration is loaded at most once and cached
provided the first successful load returns a non-null section: every later
call returns the first call's value regardless of subsequent configuration
sources.  (When the loaded section is null it coincides with the cache
sentinel and each call reloads.) -/
theorem claim_C9_first_caller_wins (src1 : LoadSource) (srcs : List LoadSource)
    (v : Yaml) (d : Bool) (hload : loadLoggerSection src1 = (Except.ok v, d))
    (hv : v ≠ Yaml.ynull) :
    get_config_seq Yaml.ynull (src1 :: srcs) =
      Except.ok v :: srcs.map (fun _ => Except.ok v) := by
  have hstep : get_config_step Yaml.ynull src1 = (Except.ok (v, v), d) := by
    simp [get_config_step, hload]
  simp [get_config_seq, hstep, get_config_seq_cached v hv srcs]

theorem claim_C9_witness :
    get_config_seq Yaml.ynull [srcRealSection, srcNullSection] =
      [Except.ok (Yaml.ymap [("a", Yaml.yint 1)]),
       Except.ok (Yaml.ymap [("a", Yaml.yint 1)])] :=
  claim_C9_first_caller_wins srcRealSection [srcNullSection]
    (Yaml.ymap [("a", Yaml.yint 1)]) false rfl (fun h => Yaml.noConfusion h)
